import Mathlib

/-!
# FIT codec verification for the under-preassure-tyre repository

Shallow embedding of the repository's FIT-file tooling and of the codec
described in its specification, with theorems settling the frozen claims.

Embedded sources:
* `src/test_data/garmin_crc_comparison.py` — the Garmin nibble-wise CRC
  (`fit_crc_get16`, `garmin_fit_crc`) and `validate_with_garmin_crc`.
* `src/generate_comprehensive.py` — the hand-built comprehensive FIT file.
* `src/tools/manual_fit_parser.py` — the CRC-16/CCITT table, `get_crc`,
  and the record-stream parser `parse_file`.
* `src/tools/generate_strava_fit.py` — `FITWriter` (`_crc16`, `write`,
  the semicircle conversion in `add_record`).
* `src/analyze_descents.py` — the semicircle → degrees conversion.

Machine integers are modelled as `Nat`/`Int` with explicit masking where the
Python code masks; Python `bytes` become `List Nat` whose elements are < 256
wherever the source writes genuine bytes.  Python float arithmetic in the
semicircle conversion is modelled exactly over `ℚ` (the float rounding error
at this magnitude is far below every tolerance appearing in the claims).
-/

namespace Fit

/-- Little-endian read of two bytes, as `struct.unpack` with format `<H`. -/
def readU16le (a b : Nat) : Nat := a + 256 * b

/-- Big-endian read of two bytes, as `struct.unpack` with format `>H`. -/
def readU16be (a b : Nat) : Nat := 256 * a + b

/-- Little-endian read of four bytes, as `struct.unpack` with format `<I`. -/
def readU32le (a b c d : Nat) : Nat := a + 256 * b + 65536 * c + 16777216 * d

/-- Big-endian read of four bytes, as `struct.unpack` with format `>I`. -/
def readU32be (a b c d : Nat) : Nat := 16777216 * a + 65536 * b + 256 * c + d

/-- Little-endian two-byte encoding of a 16-bit value, as `struct.pack "<H"`. -/
def le16 (v : Nat) : List Nat := [v % 256, v / 256 % 256]

/-- Little-endian four-byte encoding of a 32-bit value, as `struct.pack "<I"`. -/
def le32 (v : Nat) : List Nat :=
  [v % 256, v / 256 % 256, v / 65536 % 256, v / 16777216 % 256]

/-! ## Garmin nibble-wise CRC — `src/test_data/garmin_crc_comparison.py` -/

/-- The 16-entry CRC table shared by `fit_crc_get16` in
`garmin_crc_comparison.py` and `garmin_fit_crc` in `generate_comprehensive.py`. -/
def crc_table : List Nat :=
  [0x0000, 0xCC01, 0xD801, 0x1400, 0xF001, 0x3C00, 0x2800, 0xE401,
   0xA001, 0x6C00, 0x7800, 0xB401, 0x5000, 0x9C01, 0x8801, 0x4400]

/-- `fit_crc_get16(crc, byte)` from `garmin_crc_comparison.py`: one byte step
of the Garmin CRC, low nibble first, then high nibble. -/
def fit_crc_get16 (crc byte : Nat) : Nat :=
  let tmp := crc_table.getD (crc &&& 0xF) 0
  let crc1 := (crc >>> 4) &&& 0x0FFF
  let crc2 := crc1 ^^^ tmp ^^^ crc_table.getD (byte &&& 0xF) 0
  let tmp2 := crc_table.getD (crc2 &&& 0xF) 0
  let crc3 := (crc2 >>> 4) &&& 0x0FFF
  crc3 ^^^ tmp2 ^^^ crc_table.getD ((byte >>> 4) &&& 0xF) 0

/-- `garmin_fit_crc(data)` from `garmin_crc_comparison.py` (identical code in
`generate_comprehensive.py`): fold `fit_crc_get16` over the bytes from 0. -/
def garmin_fit_crc (data : List Nat) : Nat :=
  data.foldl fit_crc_get16 0

/-- The reference one-byte CRC step exactly as written in the specification
(§4.1): `tmp = table[crc & 0xF]; crc = (crc >> 4) & 0x0FFF;
crc ^= tmp ^ table[byte & 0xF]`, and then the same again with the high
nibble `(byte >> 4) & 0xF`. -/
def specCrcStep (crc byte : Nat) : Nat :=
  let t1 := crc_table.getD (crc &&& 0xF) 0
  let c1 := ((crc >>> 4) &&& 0x0FFF) ^^^ t1 ^^^ crc_table.getD (byte &&& 0xF) 0
  let t2 := crc_table.getD (c1 &&& 0xF) 0
  ((c1 >>> 4) &&& 0x0FFF) ^^^ t2 ^^^ crc_table.getD ((byte >>> 4) &&& 0xF) 0

/-- The specification's `crc16_buffer`: fold the reference step over the bytes
in file order starting from an initial value of 0. -/
def specCrcBuffer (data : List Nat) : Nat :=
  data.foldl specCrcStep 0

/-! ## Semicircle conversions — `src/tools/generate_strava_fit.py` and
`src/analyze_descents.py` -/

/-- Python `int()` applied to a rational: truncation toward zero. -/
def pytrunc (q : ℚ) : ℤ := if 0 ≤ q then ⌊q⌋ else ⌈q⌉

/-- `lat_semicircles = int(lat * (2**31) / 180.0)` from
`FITWriter.add_record` (`generate_strava_fit.py`, line 198), with the float
arithmetic modelled exactly over `ℚ`. -/
def lat_semicircles (lat : ℚ) : ℤ := pytrunc (lat * 2 ^ 31 / 180)

/-- `lat1_deg = lat1 * 180.0 / (2**31)` from `haversine_distance`
(`analyze_descents.py`, line 9): decode semicircles back to degrees. -/
def semicircles_to_degrees (s : ℤ) : ℚ := (s : ℚ) * 180 / 2 ^ 31

/-! ## `FITWriter` — `src/tools/generate_strava_fit.py` -/

/-- One shift-and-xor round of `FITWriter._crc16`, the body of
`for _ in range(8)`. -/
def fitwriter_crc16_round (crc : Nat) : Nat :=
  if crc &&& 0x8000 ≠ 0 then ((crc <<< 1) ^^^ 0xCC01) &&& 0xFFFF
  else (crc <<< 1) &&& 0xFFFF

/-- One byte of `FITWriter._crc16`: xor the byte into the shifted running
value, then eight shift rounds. -/
def fitwriter_crc16_byte (crc byte : Nat) : Nat :=
  fitwriter_crc16_round^[8] (((crc <<< 8) ^^^ byte) &&& 0xFFFF)

/-- `FITWriter._crc16(data)` (`generate_strava_fit.py`, lines 158-168). -/
def fitwriter_crc16 (data : List Nat) : Nat :=
  data.foldl fitwriter_crc16_byte 0

/-- The message buffer built by `FITWriter.write`: for each queued record
`(msg_type, msg_data)` it emits `bytes([0x40, msg_type])` followed by the
record's data bytes. -/
def fitwriter_msg_bytes (records : List (Nat × List Nat)) : List Nat :=
  (records.map fun r => 0x40 :: r.1 :: r.2).flatten

/-- The header bytes written by `FITWriter.write`: `FIT_HEADER_SIZE = 14`,
`FIT_PROTOCOL_VERSION = 0x20`, profile version 2314 packed `<H`, the data
length packed `<I`, and the `.FIT` magic.  Note that only 12 bytes are
written; no header CRC follows. -/
def fitwriter_header (dataLen : Nat) : List Nat :=
  [14, 0x20] ++ le16 2314 ++ le32 dataLen ++ [46, 70, 73, 84]

/-- `FITWriter.write` (`generate_strava_fit.py`, lines 273-298): header,
then the message buffer, then the CRC of the message buffer packed `<H`. -/
def fitwriter_write (records : List (Nat × List Nat)) : List Nat :=
  let dataBuf := fitwriter_msg_bytes records
  fitwriter_header dataBuf.length ++ dataBuf ++ le16 (fitwriter_crc16 dataBuf)

/-- The `file_id` record queued by `FITWriter.add_file_id`:
`pack("<BI", 4, 1) + pack("<H", 0) + pack("<I", 12345)`. -/
def fitwriter_file_id_data : List Nat :=
  [4, 1, 0, 0, 0, 0, 0, 57, 48, 0, 0]

/-! ## `manual_fit_parser.py` — the CRC-16/CCITT table and record parser -/

/-- `CRC_TABLE` from `src/tools/manual_fit_parser.py` (256 entries). -/
def CRC_TABLE : List Nat :=
  [0x0000, 0x1021, 0x2042, 0x3063, 0x4084, 0x50A5, 0x60C6, 0x70E7,
   0x8108, 0x9129, 0xA14A, 0xB16B, 0xC18C, 0xD1AD, 0xE1CE, 0xF1EF,
   0x1231, 0x0210, 0x3273, 0x2252, 0x52B5, 0x4294, 0x72F7, 0x62D6,
   0x9339, 0x8318, 0xB37B, 0xA35A, 0xD3BD, 0xC39C, 0xF3FF, 0xE3DE,
   0x2462, 0x3443, 0x0420, 0x1401, 0x64E6, 0x74C7, 0x44A4, 0x5485,
   0xA56A, 0xB54B, 0x8528, 0x9509, 0xE5EE, 0xF5CF, 0xC5AC, 0xD58D,
   0x3653, 0x2672, 0x1611, 0x0630, 0x76D7, 0x66F6, 0x5695, 0x46B4,
   0xB75B, 0xA77A, 0x9719, 0x8738, 0xF7DF, 0xE7FE, 0xD79D, 0xC7BC,
   0x48C4, 0x58E5, 0x6886, 0x78A7, 0x0840, 0x1861, 0x2802, 0x3823,
   0xC9CC, 0xD9ED, 0xE98E, 0xF9AF, 0x8948, 0x9969, 0xA90A, 0xB92B,
   0x5AF5, 0x4AD4, 0x7AB7, 0x6A96, 0x1A71, 0x0A50, 0x3A33, 0x2A12,
   0xDBFD, 0xCBDC, 0xFBBF, 0xEB9E, 0x9B79, 0x8B58, 0xBB3B, 0xAB1A,
   0x6CA6, 0x7C87, 0x4CE4, 0x5CC5, 0x2C22, 0x3C03, 0x0C60, 0x1C41,
   0xEDAE, 0xFD8F, 0xCDEC, 0xDDCD, 0xAD2A, 0xBD0B, 0x8D68, 0x9D49,
   0x7E97, 0x6EB6, 0x5ED5, 0x4EF4, 0x3E13, 0x2E32, 0x1E51, 0x0E70,
   0xFF9F, 0xEFBE, 0xDFDD, 0xCFFC, 0xBF1B, 0xAF3A, 0x9F59, 0x8F78,
   0x9188, 0x81A9, 0xB1CA, 0xA1EB, 0xD10C, 0xC12D, 0xF14E, 0xE16F,
   0x1080, 0x00A1, 0x30C2, 0x20E3, 0x5004, 0x4025, 0x7046, 0x6067,
   0x83B9, 0x9398, 0xA3FB, 0xB3DA, 0xC33D, 0xD31C, 0xE37F, 0xF35E,
   0x02B1, 0x1290, 0x22F3, 0x32D2, 0x4235, 0x5214, 0x6277, 0x7256,
   0xB5EA, 0xA5CB, 0x95A8, 0x8589, 0xF56E, 0xE54F, 0xD52C, 0xC50D,
   0x34E2, 0x24C3, 0x14A0, 0x0481, 0x7466, 0x6447, 0x5424, 0x4405,
   0xA7DB, 0xB7FA, 0x8799, 0x97B8, 0xE75F, 0xF77E, 0xC71D, 0xD73C,
   0x26D3, 0x36F2, 0x0691, 0x16B0, 0x6657, 0x7676, 0x4615, 0x5634,
   0xD94C, 0xC96D, 0xF90E, 0xE92F, 0x99C8, 0x89E9, 0xB98A, 0xA9AB,
   0x5844, 0x4865, 0x7806, 0x6827, 0x18C0, 0x08E1, 0x3882, 0x28A3,
   0xCB7D, 0xDB5C, 0xEB3F, 0xFB1E, 0x8BF9, 0x9BD8, 0xABBB, 0xBB9A,
   0x4A75, 0x5A54, 0x6A37, 0x7A16, 0x0AF1, 0x1AD0, 0x2AB3, 0x3A92,
   0xFD2E, 0xED0F, 0xDD6C, 0xCD4D, 0xBDAA, 0xAD8B, 0x9DE8, 0x8DC9,
   0x7C26, 0x6C07, 0x5C64, 0x4C45, 0x3CA2, 0x2C83, 0x1CE0, 0x0CC1,
   0xEF1F, 0xFF3E, 0xCF5D, 0xDF7C, 0xAF9B, 0xBFBA, 0x8FD9, 0x9FF8,
   0x6E17, 0x7E36, 0x4E55, 0x5E74, 0x2E93, 0x3EB2, 0x0ED1, 0x1EF0]

/-- One byte of `get_crc` from `manual_fit_parser.py`: shift, table lookup
indexed by the shifted value's high byte xored with the input byte, mask. -/
def get_crc_step (crc byte : Nat) : Nat :=
  let c1 := (crc <<< 8) &&& 0xFFFF
  let c2 := c1 ^^^ CRC_TABLE.getD ((c1 >>> 8) ^^^ byte) 0
  c2 &&& 0xFFFF

/-- `get_crc(data)` from `manual_fit_parser.py` (lines 40-46). -/
def get_crc (data : List Nat) : Nat :=
  data.foldl get_crc_step 0

/-- A 3-byte field descriptor as read by `parse_file`:
`{def_num, size, type}`. -/
structure FieldDef where
  def_num : Nat
  size : Nat
  base_type : Nat
deriving DecidableEq

/-- A registry entry as stored by `parse_file` into `definitions[lmt]`:
`{global_msg_num, fields, total_size}`.  The reserved and architecture bytes
are read only for printing and are not stored. -/
structure MsgDef where
  global_msg_num : Nat
  fields : List FieldDef
  total_size : Nat
deriving DecidableEq

/-- The registry `definitions`, a mapping from local message type to the most
recently stored definition. -/
def Registry : Type := Nat → Option MsgDef

/-- The empty registry (`definitions = {}` at the start of `parse_file`). -/
def emptyRegistry : Registry := fun _ => none

/-- One record as reported by the `parse_file` loop: a Definition Message, a
Data Message carrying each field's descriptor, raw byte chunk and (for 4-byte
fields with def_num in `[253, 4, 2, 7, 8, 0]`) the big-endian `>I`
interpretation the script prints, or the `No definition found` error on which
the script stops. -/
inductive PRec where
  | defn (lmt : Nat) (d : MsgDef)
  | dataMsg (lmt : Nat) (gmn : Nat) (flds : List (FieldDef × List Nat × Option Nat))
  | undef (lmt : Nat)
deriving DecidableEq

/-- The field-descriptor reading loop of the Definition Message branch:
`num_fields` triples of bytes. -/
def readFields : Nat → List Nat → List FieldDef
  | 0, _ => []
  | n + 1, bs =>
      ⟨bs.getD 0 0, bs.getD 1 0, bs.getD 2 0⟩ :: readFields n (bs.drop 3)

/-- The total data size accumulated by the Definition Message branch:
the sum of the field sizes in order. -/
def sumSizes (fds : List FieldDef) : Nat :=
  fds.foldl (fun acc f => acc + f.size) 0

/-- The per-field slicing of a Data Message's bytes
(`data_bytes[field_offset : field_offset + size]`), with the `>I`
interpretation of lines 216-219 attached where the script computes it. -/
def chunkFields : List FieldDef → List Nat → List (FieldDef × List Nat × Option Nat)
  | [], _ => []
  | f :: fs, bs =>
      let chunk := bs.take f.size
      let interp :=
        if f.size = 4 ∧ chunk.length = 4 ∧
            (f.def_num = 253 ∨ f.def_num = 4 ∨ f.def_num = 2 ∨ f.def_num = 7 ∨
              f.def_num = 8 ∨ f.def_num = 0) then
          some (readU32be (chunk.getD 0 0) (chunk.getD 1 0) (chunk.getD 2 0)
            (chunk.getD 3 0))
        else none
      (f, chunk, interp) :: chunkFields fs (bs.drop f.size)

/-- The record loop of `parse_file` (`manual_fit_parser.py`, lines 160-231):
`remaining` is `header_size + data_size - pointer`, `bs` the bytes from the
cursor on.  A Definition Message stores `{global_msg_num (read <H,
little-endian), fields, total_size}` into the registry slot, overwriting it; a
Data Message resolves its slot and slices `total_size` bytes per the stored
field list; an unresolved slot reports the error and stops the loop.  Fuel
bounds the iteration count; every iteration consumes at least one remaining
byte, so `remaining` itself is sufficient fuel. -/
def parseLoop : Nat → Nat → List Nat → Registry → List PRec
  | 0, _, _, _ => []
  | _ + 1, 0, _, _ => []
  | _ + 1, _ + 1, [], _ => []
  | fuel + 1, remaining + 1, rh :: rest, regs =>
      if (rh >>> 6) &&& 1 = 1 then
        PRec.defn (rh &&& 15)
            ⟨readU16le (rest.getD 2 0) (rest.getD 3 0),
              readFields (rest.getD 4 0) (rest.drop 5),
              sumSizes (readFields (rest.getD 4 0) (rest.drop 5))⟩ ::
          parseLoop fuel (remaining + 1 - (6 + 3 * rest.getD 4 0))
            ((rest.drop 5).drop (3 * rest.getD 4 0))
            (Function.update regs (rh &&& 15)
              (some ⟨readU16le (rest.getD 2 0) (rest.getD 3 0),
                readFields (rest.getD 4 0) (rest.drop 5),
                sumSizes (readFields (rest.getD 4 0) (rest.drop 5))⟩))
      else
        match regs (rh &&& 15) with
        | none => [PRec.undef (rh &&& 15)]
        | some d =>
            PRec.dataMsg (rh &&& 15) d.global_msg_num
                (chunkFields d.fields (rest.take d.total_size)) ::
              parseLoop fuel (remaining + 1 - (1 + d.total_size))
                (rest.drop d.total_size) regs

/-- The result of `parse_file`: the parsed header fields, the record list, and
the two CRC comparisons the script prints (`None` where the script prints
`Not present` / `Not found or incorrect length`). -/
structure ParseResult where
  header_size : Nat
  protocol_version : Nat
  profile_version : Nat
  data_size : Nat
  data_type : List Nat
  header_crc : Option Nat
  headerCrcOk : Option Bool
  records : List PRec
  fileCrcOk : Option Bool
deriving DecidableEq

/-- `parse_file` from `manual_fit_parser.py` (lines 131-243): header fields
read little-endian, the record loop from `pointer = header_size` while
`pointer < header_size + data_size`, then the 2-byte trailer compared
little-endian against `get_crc` over everything before it. -/
def parse_file (bytes : List Nat) : ParseResult :=
  let hs := bytes.getD 0 0
  let ds := readU32le (bytes.getD 4 0) (bytes.getD 5 0) (bytes.getD 6 0) (bytes.getD 7 0)
  let hcrc := if hs = 14 then some (readU16le (bytes.getD 12 0) (bytes.getD 13 0)) else none
  let trailer := bytes.drop (hs + ds)
  { header_size := hs
    protocol_version := bytes.getD 1 0
    profile_version := readU16le (bytes.getD 2 0) (bytes.getD 3 0)
    data_size := ds
    data_type := (bytes.drop 8).take 4
    header_crc := hcrc
    headerCrcOk := hcrc.map (fun c => c == get_crc (bytes.take 12))
    records := parseLoop ds ds (bytes.drop hs) emptyRegistry
    fileCrcOk :=
      if trailer.length = 2 then
        some (readU16le (trailer.getD 0 0) (trailer.getD 1 0) ==
          get_crc (bytes.take (hs + ds)))
      else none }

/-- Test-harness encoding of a Definition Message in the byte layout
`parse_file` expects: record header `0x40 + lmt`, reserved byte, architecture
byte, the global message number in the little-endian order the parser reads it
back with, the field count, then the 3-byte descriptors. -/
def defMsgBytes (lmt reserved arch gmn : Nat) (fds : List FieldDef) : List Nat :=
  (64 + lmt) :: reserved :: arch :: gmn % 256 :: gmn / 256 :: fds.length ::
    (fds.map fun f => [f.def_num, f.size, f.base_type]).flatten

/-- The registry entry `parse_file` stores for a definition with global
message number `gmn` and descriptor list `fds`. -/
def mkMsgDef (gmn : Nat) (fds : List FieldDef) : MsgDef :=
  ⟨gmn, fds, sumSizes fds⟩

/-- Structural validity of a message body for the `parseLoop` cursor: every
record's reads stay inside the body and inside the remaining byte budget, and
no Data Message hits an undefined slot.  This is the premise under which the
loop never reads past `header_size + data_size` (a malformed file could make
the Python script read into the trailer or raise). -/
def bodyClosed : Nat → Nat → List Nat → Registry → Bool
  | 0, remaining, _, _ => remaining == 0
  | _ + 1, 0, _, _ => true
  | _ + 1, _ + 1, [], _ => false
  | fuel + 1, remaining + 1, rh :: rest, regs =>
      if (rh >>> 6) &&& 1 = 1 then
        decide (5 + 3 * rest.getD 4 0 ≤ rest.length) &&
          decide (6 + 3 * rest.getD 4 0 ≤ remaining + 1) &&
          bodyClosed fuel (remaining + 1 - (6 + 3 * rest.getD 4 0))
            ((rest.drop 5).drop (3 * rest.getD 4 0))
            (Function.update regs (rh &&& 15)
              (some ⟨readU16le (rest.getD 2 0) (rest.getD 3 0),
                readFields (rest.getD 4 0) (rest.drop 5),
                sumSizes (readFields (rest.getD 4 0) (rest.drop 5))⟩))
      else
        match regs (rh &&& 15) with
        | none => false
        | some d =>
            decide (d.total_size ≤ rest.length) &&
              decide (1 + d.total_size ≤ remaining + 1) &&
              bodyClosed fuel (remaining + 1 - (1 + d.total_size))
                (rest.drop d.total_size) regs

/-! ## `generate_comprehensive.py` — the hand-built comprehensive file -/

/-- `write_uint16_be` from `generate_comprehensive.py`: high byte first. -/
def write_uint16_be (v : Nat) : List Nat :=
  [(v >>> 8) &&& 0xFF, v &&& 0xFF]

/-- `write_uint32_be` from `generate_comprehensive.py`: big-endian bytes. -/
def write_uint32_be (v : Nat) : List Nat :=
  [(v >>> 24) &&& 0xFF, (v >>> 16) &&& 0xFF, (v >>> 8) &&& 0xFF, v &&& 0xFF]

/-- `write_sint32_be` from `generate_comprehensive.py`: two's complement for
negative values, then big-endian bytes. -/
def write_sint32_be (v : Int) : List Nat :=
  write_uint32_be ((v % 4294967296).toNat)

/-- One Record data message of `create_comprehensive_fit` (loop body of
lines 104-113). -/
def comprehensive_record (i : Nat) : List Nat :=
  [0x01] ++ write_uint32_be (0x30390000 + i * 2) ++
    write_sint32_be (909310272 + (i : Int) * 100) ++
    write_sint32_be (-2967996672 + (i : Int) * 100) ++
    write_uint32_be (100 + i * 10) ++ write_uint16_be (250 + i * 5) ++
    [85 + i % 10]

/-- The `data_msg` buffer of `create_comprehensive_fit`
(`generate_comprehensive.py`, lines 68-131): FileID definition and data,
Record definition and ten Record data messages, Activity definition and data.
Note each global message number is written with `write_uint16_be`
(big-endian). -/
def comprehensive_data_msg : List Nat :=
  [0x40, 0x00, 0x01] ++ write_uint16_be 0 ++ [0x04] ++
    [0x00, 0x01, 0x00] ++ [0x01, 0x02, 0x84] ++ [0x02, 0x02, 0x84] ++
    [0x04, 0x04, 0x86] ++
  [0x00, 0x04] ++ write_uint16_be 1 ++ write_uint16_be 1 ++
    write_uint32_be 0x30390000 ++
  [0x41, 0x00, 0x01] ++ write_uint16_be 20 ++ [0x06] ++
    [0xFD, 0x04, 0x86] ++ [0x00, 0x04, 0x85] ++ [0x01, 0x04, 0x85] ++
    [0x06, 0x04, 0x86] ++ [0x07, 0x02, 0x84] ++ [0x04, 0x01, 0x02] ++
  ((List.range 10).map comprehensive_record).flatten ++
  [0x42, 0x00, 0x01] ++ write_uint16_be 34 ++ [0x03] ++
    [0xFE, 0x04, 0x86] ++ [0x00, 0x01, 0x00] ++ [0x01, 0x01, 0x02] ++
  [0x02] ++ write_uint32_be 0x30390000 ++ [0x00, 0x01]

/-- The first 12 header bytes of `create_comprehensive_fit`: header size 14,
protocol 0x20, profile version 2163 written big-endian, the data size patched
in big-endian (lines 134-136), and the `.FIT` magic. -/
def comprehensive_header : List Nat :=
  [14, 0x20] ++ write_uint16_be 2163 ++ write_uint32_be comprehensive_data_msg.length ++
    [0x2E, 0x46, 0x49, 0x54]

/-- `create_comprehensive_fit()` (lines 53-151): 12 header bytes, the Garmin
CRC of those 12 bytes stored little-endian, the message buffer, and the Garmin
CRC of everything so far appended little-endian. -/
def create_comprehensive_fit : List Nat :=
  let header := comprehensive_header ++
    [garmin_fit_crc comprehensive_header &&& 0xFF,
      (garmin_fit_crc comprehensive_header >>> 8) &&& 0xFF]
  let full := header ++ comprehensive_data_msg
  full ++ [garmin_fit_crc full &&& 0xFF, (garmin_fit_crc full >>> 8) &&& 0xFF]

/-! ## Spec-modelled LogicalMessage codec

Modelled from the spec: the repository contains no encoder/decoder over
typed `LogicalMessage` values — only the ad hoc generators and printers
embedded above — so the codec of spec §3-§4.5 (tagged LogicalMessage union,
Definition/Data message stream with a 16-slot registry, lazy definition
emission, 14-byte little-endian header, Garmin CRCs over the first 12 bytes
and over everything before the 2-byte trailer, big-endian global message
numbers) is modelled here from the spec's words.  The encoder uses
architecture 0 (little-endian) throughout, as §4.5 prescribes; the decoder
covers the base types the modelled layouts use. -/

/-- A decoded field value of one of the base types used by the modelled
message layouts (enum/uint8, uint16, uint32, sint32). -/
inductive FieldVal where
  | u8 (v : Nat)
  | u16 (v : Nat)
  | u32 (v : Nat)
  | s32 (v : Int)
deriving DecidableEq

/-- Modelled from the spec: little-endian wire encoding of one field value;
sint32 is two's complement (§4.5 step 3). -/
def encField : FieldVal → List Nat
  | .u8 v => [v]
  | .u16 v => le16 v
  | .u32 v => le32 v
  | .s32 v => le32 (v % 4294967296).toNat

/-- Wire encoding of a field-value list in definition order. -/
def encFields (vals : List FieldVal) : List Nat :=
  (vals.map encField).flatten

/-- A field value is within its declared wire width. -/
def fieldWF : FieldVal → Bool
  | .u8 v => v < 256
  | .u16 v => v < 65536
  | .u32 v => v < 4294967296
  | .s32 v => decide (-2147483648 ≤ v) && decide (v < 2147483648)

/-- Modelled from the spec (§3): the tagged LogicalMessage union
`FileId | Record | Lap | Session | Activity | DeviceInfo | Event` carrying
the wire-scaled semantic fields this application uses (timestamps as
FIT-epoch seconds, GPS as signed 32-bit semicircles, speed/power as scaled
integers), plus the raw/unknown-message fallback of §9. -/
inductive LogicalMessage where
  | fileId (ftype manufacturer product timeCreated : Nat)
  | record (timestamp : Nat) (lat lon : Int) (speed cadence power : Nat)
  | lap (timestamp startTime totalElapsed totalDistance : Nat)
  | session (timestamp startTime sport : Nat)
  | activity (timestamp atype numSessions : Nat)
  | deviceInfo (timestamp deviceIndex : Nat)
  | event (timestamp etype : Nat)
  | raw (gmn : Nat) (vals : List FieldVal)
deriving DecidableEq

/-- The seven encodable message kinds. -/
inductive MsgTag where
  | fileId
  | record
  | lap
  | session
  | activity
  | deviceInfo
  | event
deriving DecidableEq

/-- The kind of a LogicalMessage; `none` for the raw fallback, which the
encoder does not accept. -/
def tagOf : LogicalMessage → Option MsgTag
  | .fileId _ _ _ _ => some .fileId
  | .record _ _ _ _ _ _ => some .record
  | .lap _ _ _ _ => some .lap
  | .session _ _ _ => some .session
  | .activity _ _ _ => some .activity
  | .deviceInfo _ _ => some .deviceInfo
  | .event _ _ => some .event
  | .raw _ _ => none

/-- The global message number of each kind (§3: 0 = FileId, 18 = Session,
19 = Lap, 20 = Record, 34 = Activity; 23 = DeviceInfo, 21 = Event). -/
def tagGmn : MsgTag → Nat
  | .fileId => 0
  | .record => 20
  | .lap => 19
  | .session => 18
  | .activity => 34
  | .deviceInfo => 23
  | .event => 21

/-- The local-message-type slot the encoder assigns to each kind (the next
free slot, §4.5 step 2; the layouts here are fixed per kind). -/
def tagSlot : MsgTag → Nat
  | .fileId => 0
  | .record => 1
  | .lap => 2
  | .session => 3
  | .activity => 4
  | .deviceInfo => 5
  | .event => 6

/-- The fixed field layout of each kind: (field id, byte size, base type),
with base types enum = 0, uint8 = 2, uint16 = 0x84, sint32 = 0x85,
uint32 = 0x86.  The FileId layout is Scenario B's (1-byte type, 2-byte
manufacturer, 2-byte product, 4-byte time_created). -/
def layoutOf : MsgTag → List FieldDef
  | .fileId => [⟨0, 1, 0⟩, ⟨1, 2, 132⟩, ⟨2, 2, 132⟩, ⟨4, 4, 134⟩]
  | .record => [⟨253, 4, 134⟩, ⟨0, 4, 133⟩, ⟨1, 4, 133⟩, ⟨6, 2, 132⟩,
      ⟨4, 1, 2⟩, ⟨7, 2, 132⟩]
  | .lap => [⟨253, 4, 134⟩, ⟨2, 4, 134⟩, ⟨7, 4, 134⟩, ⟨9, 4, 134⟩]
  | .session => [⟨253, 4, 134⟩, ⟨2, 4, 134⟩, ⟨5, 1, 0⟩]
  | .activity => [⟨253, 4, 134⟩, ⟨2, 1, 0⟩, ⟨1, 1, 2⟩]
  | .deviceInfo => [⟨253, 4, 134⟩, ⟨0, 1, 2⟩]
  | .event => [⟨253, 4, 134⟩, ⟨0, 1, 0⟩]

/-- The field values of a LogicalMessage in layout order. -/
def fieldsOf : LogicalMessage → List FieldVal
  | .fileId a b c d => [.u8 a, .u16 b, .u16 c, .u32 d]
  | .record ts la lo sp cad pw => [.u32 ts, .s32 la, .s32 lo, .u16 sp, .u8 cad, .u16 pw]
  | .lap ts st te td => [.u32 ts, .u32 st, .u32 te, .u32 td]
  | .session ts st sp => [.u32 ts, .u32 st, .u8 sp]
  | .activity ts ty ns => [.u32 ts, .u8 ty, .u8 ns]
  | .deviceInfo ts di => [.u32 ts, .u8 di]
  | .event ts et => [.u32 ts, .u8 et]
  | .raw _ vals => vals

/-- Rebuild the LogicalMessage for a global message number from decoded field
values; unknown global message numbers fall back to the raw variant (§4.4),
known ones with the wrong field shape fail. -/
def fromFields : Nat → List FieldVal → Option LogicalMessage
  | 0, [.u8 a, .u16 b, .u16 c, .u32 d] => some (.fileId a b c d)
  | 20, [.u32 ts, .s32 la, .s32 lo, .u16 sp, .u8 cad, .u16 pw] =>
      some (.record ts la lo sp cad pw)
  | 19, [.u32 ts, .u32 st, .u32 te, .u32 td] => some (.lap ts st te td)
  | 18, [.u32 ts, .u32 st, .u8 sp] => some (.session ts st sp)
  | 34, [.u32 ts, .u8 ty, .u8 ns] => some (.activity ts ty ns)
  | 23, [.u32 ts, .u8 di] => some (.deviceInfo ts di)
  | 21, [.u32 ts, .u8 et] => some (.event ts et)
  | g, vals =>
      if g = 0 ∨ g = 20 ∨ g = 19 ∨ g = 18 ∨ g = 34 ∨ g = 23 ∨ g = 21 then none
      else some (.raw g vals)

/-- A message the encoder accepts: one of the seven kinds, with every field
value within its wire width. -/
def msgWF (m : LogicalMessage) : Bool :=
  match tagOf m with
  | none => false
  | some _ => (fieldsOf m).all fieldWF

/-- Well-formedness of a whole message sequence. -/
def msgsWF (S : List LogicalMessage) : Bool :=
  S.all msgWF

/-- The Definition Message the encoder emits for a kind: record header
`0x40 + slot`, reserved 0, architecture 0 (little-endian), the global
message number big-endian (§4.4/§6), the field count, the 3-byte
descriptors. -/
def defMsgBytesSpec (tag : MsgTag) : List Nat :=
  (64 + tagSlot tag) :: 0 :: 0 :: tagGmn tag / 256 :: tagGmn tag % 256 ::
    (layoutOf tag).length ::
    ((layoutOf tag).map fun f => [f.def_num, f.size, f.base_type]).flatten

/-- The Data Message the encoder emits: record header with bit 6 clear and
the resolved local type, then each field's bytes in definition order. -/
def dataMsgBytesSpec (tag : MsgTag) (m : LogicalMessage) : List Nat :=
  tagSlot tag :: encFields (fieldsOf m)

/-- Modelled from the spec (§4.5): the message-stream encoder.  `em` is the
set of kinds whose Definition Message has already been emitted; a Definition
Message is emitted lazily, once per layout. -/
def encodeMsgs : List LogicalMessage → List MsgTag → List Nat
  | [], _ => []
  | m :: rest, em =>
      match tagOf m with
      | none => encodeMsgs rest em
      | some tag =>
          if tag ∈ em then dataMsgBytesSpec tag m ++ encodeMsgs rest em
          else defMsgBytesSpec tag ++ (dataMsgBytesSpec tag m ++
            encodeMsgs rest (tag :: em))

/-- Modelled from the spec (§7): the decoder's typed error kinds. -/
inductive DecodeErr where
  | truncatedHeader
  | invalidMagic
  | unsupportedHeaderSize
  | undefinedLocalType
  | unknownBaseType
  | unsupportedCompressedTimestampHeader
  | truncatedMessageBody
  | crcMismatch
  | sizeInvariantViolation
  | fieldMismatch
deriving DecidableEq

/-- The decoder's registry: slot to (global message number, field list). -/
def DRegistry : Type := Nat → Option (Nat × List FieldDef)

/-- The decoder's empty registry. -/
def emptyDRegistry : DRegistry := fun _ => none

/-- Decode one field chunk per its base type (little-endian, the architecture
the modelled encoder emits); unknown base types fail (§4.2). -/
def decodeFieldVal (bt : Nat) (chunk : List Nat) : Option FieldVal :=
  if bt = 0 ∨ bt = 2 then some (.u8 (chunk.getD 0 0))
  else if bt = 132 then some (.u16 (readU16le (chunk.getD 0 0) (chunk.getD 1 0)))
  else if bt = 134 then
    some (.u32 (readU32le (chunk.getD 0 0) (chunk.getD 1 0) (chunk.getD 2 0)
      (chunk.getD 3 0)))
  else if bt = 133 then
    some (.s32
      (if readU32le (chunk.getD 0 0) (chunk.getD 1 0) (chunk.getD 2 0)
          (chunk.getD 3 0) < 2147483648 then
        (readU32le (chunk.getD 0 0) (chunk.getD 1 0) (chunk.getD 2 0)
          (chunk.getD 3 0) : Int)
      else (readU32le (chunk.getD 0 0) (chunk.getD 1 0) (chunk.getD 2 0)
          (chunk.getD 3 0) : Int) - 4294967296))
  else none

/-- Split a Data Message's bytes per the field descriptors in definition
order and decode each chunk; fails on a width mismatch or unknown base
type. -/
def decodeFieldsD : List FieldDef → List Nat → Option (List FieldVal)
  | [], [] => some []
  | [], _ :: _ => none
  | fd :: fds, bs =>
      if bs.length < fd.size then none
      else
        match decodeFieldVal fd.base_type (bs.take fd.size),
            decodeFieldsD fds (bs.drop fd.size) with
        | some v, some vs => some (v :: vs)
        | _, _ => none

/-- Modelled from the spec (§4.4): the record-stream decoder.  Bit 7 of the
record header (compressed timestamp) fails loudly; a Definition Message
stores (global message number read big-endian, field list) into its slot,
overwriting it; a Data Message resolves its slot (undefined slot is the
`undefinedLocalType` error), reads exactly `total_data_size` bytes, splits
and decodes them per the definition, and rebuilds the LogicalMessage keyed by
the global message number.  Fuel bounds the recursion; every record consumes
at least one byte, so the byte count is sufficient fuel. -/
def decodeMsgs : Nat → List Nat → DRegistry → Except DecodeErr (List LogicalMessage)
  | _, [], _ => .ok []
  | 0, _ :: _, _ => .error .truncatedMessageBody
  | fuel + 1, rh :: rest, regs =>
      if 128 ≤ rh then .error .unsupportedCompressedTimestampHeader
      else if (rh >>> 6) &&& 1 = 1 then
        if rest.length < 5 + 3 * rest.getD 4 0 then .error .truncatedMessageBody
        else
          decodeMsgs fuel ((rest.drop 5).drop (3 * rest.getD 4 0))
            (Function.update regs (rh &&& 15)
              (some (readU16be (rest.getD 2 0) (rest.getD 3 0),
                readFields (rest.getD 4 0) (rest.drop 5))))
      else
        match regs (rh &&& 15) with
        | none => .error .undefinedLocalType
        | some (g, fds) =>
            if rest.length < sumSizes fds then .error .truncatedMessageBody
            else
              match decodeFieldsD fds (rest.take (sumSizes fds)) with
              | none => .error .unknownBaseType
              | some vals =>
                  match fromFields g vals with
                  | none => .error .fieldMismatch
                  | some m =>
                      match decodeMsgs fuel (rest.drop (sumSizes fds)) regs with
                      | .ok ms => .ok (m :: ms)
                      | .error e => .error e

/-- The profile version the modelled encoder writes (Scenario A's 0x089B). -/
def specProfileVersion : Nat := 2203

/-- Modelled from the spec (§4.5 step 4, §4.6): wrap a message-stream buffer
in the file envelope — the 14-byte little-endian header with the data size,
the header CRC (Garmin CRC of the first 12 bytes, little-endian), the message
bytes, then the file CRC over everything written so far, little-endian. -/
def encodeFileBytes (dataB : List Nat) : List Nat :=
  (([14, 32] ++ le16 specProfileVersion ++ le32 dataB.length ++
      [46, 70, 73, 84]) ++
    le16 (specCrcBuffer ([14, 32] ++ le16 specProfileVersion ++
      le32 dataB.length ++ [46, 70, 73, 84])) ++ dataB) ++
  le16 (specCrcBuffer
    (([14, 32] ++ le16 specProfileVersion ++ le32 dataB.length ++
        [46, 70, 73, 84]) ++
      le16 (specCrcBuffer ([14, 32] ++ le16 specProfileVersion ++
        le32 dataB.length ++ [46, 70, 73, 84])) ++ dataB))

/-- Modelled from the spec (§4.5): the full encoder — emit the message
stream, then the envelope. -/
def encodeFile (S : List LogicalMessage) : List Nat :=
  encodeFileBytes (encodeMsgs S [])

/-- Modelled from the spec (§4.4, §4.6): the file decoder — header size 12 or
14, `.FIT` magic, little-endian data size, the
`header_size + data_size + 2 == total_size` invariant, the header CRC (when
the header is 14 bytes) and the trailer CRC, then the record stream. -/
def decodeFile (bytes : List Nat) : Except DecodeErr (List LogicalMessage) :=
  if bytes.length < 12 then .error .truncatedHeader
  else if bytes.getD 0 0 ≠ 12 ∧ bytes.getD 0 0 ≠ 14 then
    .error .unsupportedHeaderSize
  else if (bytes.drop 8).take 4 ≠ [46, 70, 73, 84] then .error .invalidMagic
  else
    if bytes.length ≠ bytes.getD 0 0 +
        readU32le (bytes.getD 4 0) (bytes.getD 5 0) (bytes.getD 6 0)
          (bytes.getD 7 0) + 2 then
      .error .sizeInvariantViolation
    else if bytes.getD 0 0 = 14 ∧
        readU16le (bytes.getD 12 0) (bytes.getD 13 0) ≠
          specCrcBuffer (bytes.take 12) then
      .error .crcMismatch
    else if readU16le
          ((bytes.drop (bytes.getD 0 0 +
            readU32le (bytes.getD 4 0) (bytes.getD 5 0) (bytes.getD 6 0)
              (bytes.getD 7 0))).getD 0 0)
          ((bytes.drop (bytes.getD 0 0 +
            readU32le (bytes.getD 4 0) (bytes.getD 5 0) (bytes.getD 6 0)
              (bytes.getD 7 0))).getD 1 0) ≠
        specCrcBuffer (bytes.take (bytes.getD 0 0 +
          readU32le (bytes.getD 4 0) (bytes.getD 5 0) (bytes.getD 6 0)
            (bytes.getD 7 0))) then
      .error .crcMismatch
    else
      decodeMsgs
        (readU32le (bytes.getD 4 0) (bytes.getD 5 0) (bytes.getD 6 0)
          (bytes.getD 7 0))
        ((bytes.drop (bytes.getD 0 0)).take
          (readU32le (bytes.getD 4 0) (bytes.getD 5 0) (bytes.getD 6 0)
            (bytes.getD 7 0)))
        emptyDRegistry

/-- The registry is consistent with the emitted set: every emitted kind's
slot holds exactly that kind's (global message number, layout). -/
def RegInv (em : List MsgTag) (regs : DRegistry) : Prop :=
  ∀ tag : MsgTag, tag ∈ em →
    regs (tagSlot tag) = some (tagGmn tag, layoutOf tag)

/-- A field value has the width and base type its descriptor declares. -/
def fieldMatches (fd : FieldDef) : FieldVal → Bool
  | .u8 _ => (fd.base_type == 0 || fd.base_type == 2) && fd.size == 1
  | .u16 _ => fd.base_type == 132 && fd.size == 2
  | .u32 _ => fd.base_type == 134 && fd.size == 4
  | .s32 _ => fd.base_type == 133 && fd.size == 4

/-- A value list fits a descriptor list position by position. -/
def layoutMatches : List FieldDef → List FieldVal → Bool
  | [], [] => true
  | fd :: fds, v :: vs => fieldMatches fd v && layoutMatches fds vs
  | _, _ => false

end Fit

/-! ## Theorems -/

namespace Fit

/-- C1: the CRC engine is Garmin's nibble-wise construction — `garmin_fit_crc`
folds `fit_crc_get16` over the bytes in file order from an initial value of 0
using the fixed 16-entry table, low nibble of each byte first, then the high
nibble, so on every byte sequence it coincides with the reference nibble-wise
definition given in the specification. -/
theorem crc_engine_is_garmin_nibblewise :
    (∀ data : List Nat, garmin_fit_crc data = specCrcBuffer data) ∧
    (∀ crc byte : Nat, fit_crc_get16 crc byte = specCrcStep crc byte) ∧
    garmin_fit_crc [] = 0 ∧
    crc_table = [0x0000, 0xCC01, 0xD801, 0x1400, 0xF001, 0x3C00, 0x2800,
                 0xE401, 0xA001, 0x6C00, 0x7800, 0xB401, 0x5000, 0x9C01,
                 0x8801, 0x4400] := by
  refine ⟨fun data => ?_, fun crc byte => rfl, rfl, rfl⟩
  rfl

/-- C9 counterexample: the claim's asserted value is wrong.  Encoding latitude
52.254397° with the code's conversion gives 623419239, which is not within ±1
of the claimed 624151995 — indeed `round(52.254397 * 2^31 / 180)` itself is
623419239, not 624151995 — and the claimed stored value 624151995 decodes to
about 52.3158°, missing 52.254397° by far more than 1e-6 degrees. -/
theorem scenario_c_claimed_value_wrong :
    lat_semicircles (52254397 / 1000000) = 623419239 ∧
    round ((52254397 : ℚ) / 1000000 * 2 ^ 31 / 180) = 623419239 ∧
    1 < (623419239 - 624151995 : ℤ).natAbs ∧
    1 / 1000000 < |semicircles_to_degrees 624151995 - 52254397 / 1000000| := by
  refine ⟨?_, ?_, by norm_num, ?_⟩
  · show pytrunc _ = _
    rw [pytrunc, if_pos (by norm_num)]
    norm_num [Int.floor_eq_iff]
  · rw [round_eq]
    norm_num [Int.floor_eq_iff]
  · rw [semicircles_to_degrees]
    rw [abs_of_pos (by norm_num)]
    norm_num

/-- C9 amended: a Record message with latitude 52.254397° encodes, via the
code's `int(lat * 2^31 / 180.0)`, to the signed 32-bit semicircle value
623419239; this equals `round(52.254397 * 2^31 / 180)` (so it is within ±1 of
the correctly rounded value); and decoding the stored value back via
`degrees = semicircles * 180 / 2^31` recovers 52.254397° within 1e-6 degrees. -/
theorem scenario_c_semicircle_encoding :
    lat_semicircles (52254397 / 1000000) = 623419239 ∧
    round ((52254397 : ℚ) / 1000000 * 2 ^ 31 / 180) = 623419239 ∧
    |semicircles_to_degrees 623419239 - 52254397 / 1000000| < 1 / 1000000 := by
  refine ⟨?_, ?_, ?_⟩
  · show pytrunc _ = _
    rw [pytrunc, if_pos (by norm_num)]
    norm_num [Int.floor_eq_iff]
  · rw [round_eq]
    norm_num [Int.floor_eq_iff]
  · rw [semicircles_to_degrees]
    rw [abs_of_neg (by norm_num)]
    norm_num

/-- Reading back a little-endian 32-bit encoding recovers the value. -/
theorem readU32le_le32 (v : Nat) (h : v < 4294967296) :
    readU32le (v % 256) (v / 256 % 256) (v / 65536 % 256) (v / 16777216 % 256) = v := by
  rw [readU32le]; omega

/-- C10: every file produced by `FITWriter.write` starts with a first byte
declaring `header_size = 14` yet contains only 12 header bytes (no header CRC
field is written before the message bytes), its 2-byte trailer is the `_crc16`
of the message bytes alone (the header bytes are excluded from the CRC input),
and its total length is `12 + declared data_size + 2` where the declared data
size is the little-endian field at header bytes 4-7. -/
theorem fitwriter_file_shape (records : List (Nat × List Nat))
    (h : (fitwriter_msg_bytes records).length < 4294967296) :
    (fitwriter_write records).getD 0 0 = 14 ∧
    (fitwriter_header (fitwriter_msg_bytes records).length).length = 12 ∧
    fitwriter_write records =
      fitwriter_header (fitwriter_msg_bytes records).length ++
        (fitwriter_msg_bytes records ++
          le16 (fitwriter_crc16 (fitwriter_msg_bytes records))) ∧
    readU32le ((fitwriter_write records).getD 4 0) ((fitwriter_write records).getD 5 0)
        ((fitwriter_write records).getD 6 0) ((fitwriter_write records).getD 7 0) =
      (fitwriter_msg_bytes records).length ∧
    (fitwriter_write records).length =
      12 + (fitwriter_msg_bytes records).length + 2 := by
  refine ⟨rfl, rfl, ?_, ?_, ?_⟩
  · simp [fitwriter_write]
  · have h4 : (fitwriter_write records).getD 4 0 =
        (fitwriter_msg_bytes records).length % 256 := rfl
    have h5 : (fitwriter_write records).getD 5 0 =
        (fitwriter_msg_bytes records).length / 256 % 256 := rfl
    have h6 : (fitwriter_write records).getD 6 0 =
        (fitwriter_msg_bytes records).length / 65536 % 256 := rfl
    have h7 : (fitwriter_write records).getD 7 0 =
        (fitwriter_msg_bytes records).length / 16777216 % 256 := rfl
    rw [h4, h5, h6, h7]
    exact readU32le_le32 _ h
  · simp [fitwriter_write, fitwriter_header, le16, le32]
    omega

/-- C10 witness: the shape theorem applied to the concrete queue consisting of
the `add_file_id` record. -/
theorem fitwriter_file_shape_witness :
    (fitwriter_msg_bytes [(0, fitwriter_file_id_data)]).length < 4294967296 ∧
    (fitwriter_write [(0, fitwriter_file_id_data)]).length =
      12 + (fitwriter_msg_bytes [(0, fitwriter_file_id_data)]).length + 2 :=
  ⟨by decide, (fitwriter_file_shape [(0, fitwriter_file_id_data)] (by decide)).2.2.2.2⟩

set_option maxRecDepth 100000 in
/-- C2 failing-input evaluation: in the file written by `FITWriter.write` for
the queue `[file_id record]`, header bytes 12-13 hold the first message's
record-header bytes `[0x40, 0]`, not the little-endian CRC of the first 12
header bytes; and in the file written for an empty queue, the stored trailer
CRC is 0 while the CRC of every byte of the file except the final 2 trailer
bytes is 21504, so the stored file CRC is not the CRC over the all-but-trailer
slice that the claim requires. -/
theorem fitwriter_crc_layout_bug :
    (List.take 2 (List.drop 12 (fitwriter_write [(0, fitwriter_file_id_data)])) =
        [64, 0] ∧
      List.take 2 (List.drop 12 (fitwriter_write [(0, fitwriter_file_id_data)])) ≠
        le16 (fitwriter_crc16
          (List.take 12 (fitwriter_write [(0, fitwriter_file_id_data)])))) ∧
    (List.drop ((fitwriter_write []).length - 2) (fitwriter_write []) = [0, 0] ∧
      fitwriter_crc16 (List.take ((fitwriter_write []).length - 2)
        (fitwriter_write [])) = 21504 ∧
      readU16le 0 0 ≠ 21504) := by
  decide

/-- C4 failing-input evaluation: the file written by `FITWriter.write` for an
empty queue is 14 bytes long, declares `header_size = 14` in its first byte
and `data_size = 0` in header bytes 4-7, so its total size differs from
`header_size + data_size + 2 = 16`: the size invariant fails on `FITWriter`
output (the repository's own `validate_fit.py` checks exactly this formula). -/
theorem fitwriter_size_invariant_bug :
    (fitwriter_write []).length = 14 ∧
    (fitwriter_write []).getD 0 0 = 14 ∧
    readU32le ((fitwriter_write []).getD 4 0) ((fitwriter_write []).getD 5 0)
      ((fitwriter_write []).getD 6 0) ((fitwriter_write []).getD 7 0) = 0 ∧
    (fitwriter_write []).length ≠
      (fitwriter_write []).getD 0 0 +
        readU32le ((fitwriter_write []).getD 4 0) ((fitwriter_write []).getD 5 0)
          ((fitwriter_write []).getD 6 0) ((fitwriter_write []).getD 7 0) + 2 := by
  decide

/-- The record-header byte `0x40 + lmt` of a Definition Message satisfies the
parser's branch tests when `lmt < 16`. -/
theorem defHeaderByte_bits (lmt : Nat) (h : lmt < 16) :
    ((64 + lmt) >>> 6) &&& 1 = 1 ∧ (64 + lmt) &&& 15 = lmt := by
  interval_cases lmt <;> exact ⟨rfl, rfl⟩

/-- The record-header byte of a Data Message (the bare local type) satisfies
the parser's branch tests when `lmt < 16`. -/
theorem dataHeaderByte_bits (lmt : Nat) (h : lmt < 16) :
    (lmt >>> 6) &&& 1 = 0 ∧ lmt &&& 15 = lmt := by
  interval_cases lmt <;> exact ⟨rfl, rfl⟩

/-- Reading back the 3-byte descriptor triples reconstructs the descriptor
list, whatever follows them. -/
theorem readFields_triples (fds : List FieldDef) (rest : List Nat) :
    readFields fds.length
      ((fds.map fun f => [f.def_num, f.size, f.base_type]).flatten ++ rest) = fds := by
  induction fds generalizing rest with
  | nil => rfl
  | cons f fs ih =>
      show (⟨f.def_num, f.size, f.base_type⟩ : FieldDef) ::
          readFields fs.length
            ((fs.map fun x => [x.def_num, x.size, x.base_type]).flatten ++ rest) =
        f :: fs
      rw [ih]

/-- The descriptor triples occupy exactly `3 * fds.length` bytes. -/
theorem triples_length (fds : List FieldDef) :
    ((fds.map fun f => [f.def_num, f.size, f.base_type]).flatten).length =
      3 * fds.length := by
  induction fds with
  | nil => rfl
  | cons f fs ih => simp [ih]; omega

/-- Dropping the descriptor triples lands exactly on what follows them. -/
theorem drop_triples (fds : List FieldDef) (rest : List Nat) :
    ((fds.map fun f => [f.def_num, f.size, f.base_type]).flatten ++ rest).drop
      (3 * fds.length) = rest := by
  rw [← triples_length fds, List.drop_left]

/-- One Definition Message step of the parser loop: the definition is stored
into its slot (overwriting whatever was there) and the cursor advances past
the `6 + 3 * n` definition bytes. -/
theorem parseLoop_def_step (lmt res a g : Nat) (fds : List FieldDef)
    (X : List Nat) (regs : Registry) (fuel r : Nat)
    (hlmt : lmt < 16) (hg : g < 65536) :
    parseLoop (fuel + 1) (r + 1) (defMsgBytes lmt res a g fds ++ X) regs =
      PRec.defn lmt (mkMsgDef g fds) ::
        parseLoop fuel (r + 1 - (6 + 3 * fds.length)) X
          (Function.update regs lmt (some (mkMsgDef g fds))) := by
  obtain ⟨hb1, hb2⟩ := defHeaderByte_bits lmt hlmt
  have hg16 : readU16le (g % 256) (g / 256) = g := by
    rw [readU16le]; omega
  show parseLoop (fuel + 1) (r + 1)
      ((64 + lmt) :: (res :: a :: g % 256 :: g / 256 :: fds.length ::
        ((fds.map fun f => [f.def_num, f.size, f.base_type]).flatten ++ X))) regs = _
  rw [parseLoop, if_pos hb1]
  have e2 : (res :: a :: g % 256 :: g / 256 :: fds.length ::
      ((fds.map fun f => [f.def_num, f.size, f.base_type]).flatten ++ X)).getD 2 0 =
      g % 256 := rfl
  have e3 : (res :: a :: g % 256 :: g / 256 :: fds.length ::
      ((fds.map fun f => [f.def_num, f.size, f.base_type]).flatten ++ X)).getD 3 0 =
      g / 256 := rfl
  have e4 : (res :: a :: g % 256 :: g / 256 :: fds.length ::
      ((fds.map fun f => [f.def_num, f.size, f.base_type]).flatten ++ X)).getD 4 0 =
      fds.length := rfl
  have e5 : (res :: a :: g % 256 :: g / 256 :: fds.length ::
      ((fds.map fun f => [f.def_num, f.size, f.base_type]).flatten ++ X)).drop 5 =
      (fds.map fun f => [f.def_num, f.size, f.base_type]).flatten ++ X := rfl
  rw [e2, e3, e4, e5, hb2, hg16, readFields_triples, drop_triples]
  rfl

/-- One Data Message step of the parser loop for a slot holding definition
`d`: the message's bytes are sliced per `d` and the cursor advances past
`1 + total_size` bytes. -/
theorem parseLoop_data_step (lmt : Nat) (payload : List Nat) (regs : Registry)
    (d : MsgDef) (fuel r : Nat) (hlmt : lmt < 16) (hreg : regs lmt = some d) :
    parseLoop (fuel + 1) (r + 1) (lmt :: payload) regs =
      PRec.dataMsg lmt d.global_msg_num
          (chunkFields d.fields (payload.take d.total_size)) ::
        parseLoop fuel (r + 1 - (1 + d.total_size)) (payload.drop d.total_size)
          regs := by
  obtain ⟨hb1, hb2⟩ := dataHeaderByte_bits lmt hlmt
  rw [parseLoop]
  simp only [hb1, hb2, hreg]
  simp

/-- C6: after two Definition Messages for the same local type, every following
Data Message for that type is interpreted per the second definition only — the
parse of the continuation runs against a registry in which the slot holds
exactly the second definition and the first has been discarded — and storing
the second definition over the first is the same as never having stored the
first at all. -/
theorem definition_overwrite
    (lmt r1 a1 g1 r2 a2 g2 : Nat) (fds1 fds2 : List FieldDef)
    (payload : List Nat) (regs : Registry) (fuel remaining : Nat)
    (hlmt : lmt < 16) (hg1 : g1 < 65536) (hg2 : g2 < 65536)
    (hrem : 6 + 3 * fds1.length + (6 + 3 * fds2.length) < remaining) :
    parseLoop (fuel + 3) remaining
        (defMsgBytes lmt r1 a1 g1 fds1 ++
          (defMsgBytes lmt r2 a2 g2 fds2 ++ lmt :: payload)) regs =
      PRec.defn lmt (mkMsgDef g1 fds1) :: PRec.defn lmt (mkMsgDef g2 fds2) ::
        PRec.dataMsg lmt g2 (chunkFields fds2 (payload.take (sumSizes fds2))) ::
        parseLoop fuel
          (remaining - (6 + 3 * fds1.length) - (6 + 3 * fds2.length) -
            (1 + sumSizes fds2))
          (payload.drop (sumSizes fds2))
          (Function.update regs lmt (some (mkMsgDef g2 fds2))) ∧
    Function.update (Function.update regs lmt (some (mkMsgDef g1 fds1))) lmt
        (some (mkMsgDef g2 fds2)) =
      Function.update regs lmt (some (mkMsgDef g2 fds2)) := by
  constructor
  · obtain ⟨r, rfl⟩ : ∃ r, remaining = r + 1 := ⟨remaining - 1, by omega⟩
    rw [parseLoop_def_step lmt r1 a1 g1 fds1 _ regs (fuel + 2) r hlmt hg1]
    have e1 : r + 1 - (6 + 3 * fds1.length) = (r - (6 + 3 * fds1.length)) + 1 := by
      omega
    rw [e1, parseLoop_def_step lmt r2 a2 g2 fds2 _ _ (fuel + 1) _ hlmt hg2]
    have e2 : r - (6 + 3 * fds1.length) + 1 - (6 + 3 * fds2.length) =
        (r - (6 + 3 * fds1.length) - (6 + 3 * fds2.length)) + 1 := by omega
    rw [e2, parseLoop_data_step lmt payload _ (mkMsgDef g2 fds2) fuel _ hlmt
      (Function.update_same lmt _ _), Function.update_idem]
    dsimp only [mkMsgDef]
  · exact Function.update_idem _ _ _

/-- C6 witness: the overwrite theorem applied to two concrete definitions for
local type 5 followed by a concrete Data Message. -/
theorem definition_overwrite_witness :
    (5 < 16 ∧ 21 < 65536 ∧ 20 < 65536 ∧
      6 + 3 * [(⟨3, 2, 132⟩ : FieldDef)].length +
        (6 + 3 * [(⟨253, 4, 134⟩ : FieldDef), ⟨4, 1, 2⟩].length) < 30) ∧
    parseLoop (1 + 3) 30
        (defMsgBytes 5 0 0 21 [⟨3, 2, 132⟩] ++
          (defMsgBytes 5 0 1 20 [⟨253, 4, 134⟩, ⟨4, 1, 2⟩] ++
            5 :: [9, 8, 7, 6, 2, 1])) emptyRegistry =
      PRec.defn 5 (mkMsgDef 21 [⟨3, 2, 132⟩]) ::
        PRec.defn 5 (mkMsgDef 20 [⟨253, 4, 134⟩, ⟨4, 1, 2⟩]) ::
        PRec.dataMsg 5 20
          (chunkFields [⟨253, 4, 134⟩, ⟨4, 1, 2⟩]
            ([9, 8, 7, 6, 2, 1].take (sumSizes [⟨253, 4, 134⟩, ⟨4, 1, 2⟩]))) ::
        parseLoop 1
          (30 - (6 + 3 * [(⟨3, 2, 132⟩ : FieldDef)].length) -
            (6 + 3 * [(⟨253, 4, 134⟩ : FieldDef), ⟨4, 1, 2⟩].length) -
            (1 + sumSizes [⟨253, 4, 134⟩, ⟨4, 1, 2⟩]))
          ([9, 8, 7, 6, 2, 1].drop (sumSizes [⟨253, 4, 134⟩, ⟨4, 1, 2⟩]))
          (Function.update emptyRegistry 5
            (some (mkMsgDef 20 [⟨253, 4, 134⟩, ⟨4, 1, 2⟩]))) :=
  ⟨⟨by decide, by decide, by decide, by decide⟩,
    (definition_overwrite 5 0 0 21 0 1 20 [⟨3, 2, 132⟩] [⟨253, 4, 134⟩, ⟨4, 1, 2⟩]
      [9, 8, 7, 6, 2, 1] emptyRegistry 1 30 (by decide) (by decide) (by decide)
      (by decide)).1⟩

/-- C7: a Data Message whose local message type has no definition in the
registry makes the parser report the undefined-local-type error and stop: the
loop's entire output at that point is the single error record — no data record
is produced for the message and no bytes of it are interpreted. -/
theorem undefined_local_type (rh : Nat) (rest : List Nat) (regs : Registry)
    (fuel remaining : Nat) (hdata : (rh >>> 6) &&& 1 ≠ 1)
    (hundef : regs (rh &&& 15) = none) (hrem : remaining ≠ 0) :
    parseLoop (fuel + 1) remaining (rh :: rest) regs = [PRec.undef (rh &&& 15)] := by
  obtain ⟨r, rfl⟩ : ∃ r, remaining = r + 1 := ⟨remaining - 1, by omega⟩
  rw [parseLoop]
  simp only [if_neg hdata, hundef]

/-- C7 witness: the undefined-reference theorem applied to a concrete stream
whose first record is a Data Message for the never-defined local type 3. -/
theorem undefined_local_type_witness :
    ((3 >>> 6) &&& 1 ≠ 1 ∧ emptyRegistry (3 &&& 15) = none ∧ (5 : Nat) ≠ 0) ∧
    parseLoop (0 + 1) 5 (3 :: [1, 2, 3, 4]) emptyRegistry = [PRec.undef (3 &&& 15)] :=
  ⟨⟨by decide, rfl, by decide⟩,
    undefined_local_type 3 [1, 2, 3, 4] emptyRegistry 0 5 (by decide) rfl
      (by decide)⟩

set_option maxRecDepth 1000000 in
/-- C5 failing-input evaluation, three divergences from the endianness rule.
First, the file built by `create_comprehensive_fit` stores the header's
`profile_version` and `data_size` big-endian: reading them little-endian (as
the rule prescribes and as `manual_fit_parser.py` does) yields 29448 instead
of 2163 and 302055424 instead of the actual 274-byte message stream length.
Second, the parser reads the global message number of a Definition Message
little-endian, so the Record definition that `generate_comprehensive.py`
wrote big-endian as 20 is decoded as global message number 5120.  Third, the
parser interprets a 4-byte timestamp field big-endian even when the governing
definition's architecture byte is 0 (little-endian): bytes `01 00 00 00`
decode to 16777216 instead of 1. -/
theorem endianness_rule_violations :
    (readU16le (create_comprehensive_fit.getD 2 0) (create_comprehensive_fit.getD 3 0) =
        29448 ∧ (29448 : Nat) ≠ 2163 ∧
      readU32le (create_comprehensive_fit.getD 4 0) (create_comprehensive_fit.getD 5 0)
          (create_comprehensive_fit.getD 6 0) (create_comprehensive_fit.getD 7 0) =
        302055424 ∧ comprehensive_data_msg.length = 274 ∧
      (302055424 : Nat) ≠ 274) ∧
    ((parseLoop 274 274 comprehensive_data_msg emptyRegistry).getD 2 (PRec.undef 99) =
        PRec.defn 1 ⟨5120, [⟨253, 4, 134⟩, ⟨0, 4, 133⟩, ⟨1, 4, 133⟩, ⟨6, 4, 134⟩,
          ⟨7, 2, 132⟩, ⟨4, 1, 2⟩], 19⟩ ∧
      (5120 : Nat) ≠ 20) ∧
    (parseLoop 2 14 (defMsgBytes 0 0 0 20 [⟨253, 4, 134⟩] ++ [0, 1, 0, 0, 0])
        emptyRegistry =
      [PRec.defn 0 ⟨20, [⟨253, 4, 134⟩], 4⟩,
        PRec.dataMsg 0 20 [(⟨253, 4, 134⟩, [1, 0, 0, 0], some 16777216)]] ∧
      readU32le 1 0 0 0 = 1 ∧ (16777216 : Nat) ≠ 1) := by
  decide

/-- `readFields` never looks past the `3 * n` descriptor bytes, so any tail
appended after them is irrelevant. -/
theorem readFields_append_eq (n : Nat) (bs t : List Nat) (h : 3 * n ≤ bs.length) :
    readFields n (bs ++ t) = readFields n bs := by
  induction n generalizing bs with
  | zero => rfl
  | succ m ih =>
      match bs with
      | [] => exact absurd h (by simp)
      | [a] => exact absurd h (by simp; omega)
      | [a, b] => exact absurd h (by simp; omega)
      | a :: b :: c :: bs3 =>
          show (⟨a, b, c⟩ : FieldDef) :: readFields m (bs3 ++ t) =
            (⟨a, b, c⟩ : FieldDef) :: readFields m bs3
          have h3 : 3 * m ≤ bs3.length := by
            simp only [List.length_cons] at h; omega
          rw [ih bs3 h3]

/-- Under `bodyClosed`, the parser loop never reads past the body: its output
does not depend on what follows the body bytes. -/
theorem parseLoop_tail_irrelevant (fuel : Nat) :
    ∀ (remaining : Nat) (xs t1 t2 : List Nat) (regs : Registry),
      bodyClosed fuel remaining xs regs = true →
      parseLoop fuel remaining (xs ++ t1) regs =
        parseLoop fuel remaining (xs ++ t2) regs := by
  induction fuel with
  | zero => intro remaining xs t1 t2 regs _; rfl
  | succ f ih =>
      intro remaining xs t1 t2 regs h
      match remaining, xs with
      | 0, xs => rfl
      | rem + 1, [] => exact absurd h (by rw [bodyClosed]; simp)
      | rem + 1, rh :: xs1 =>
          by_cases hc : (rh >>> 6) &&& 1 = 1
          · rw [bodyClosed, if_pos hc] at h
            simp only [Bool.and_eq_true, decide_eq_true_eq] at h
            obtain ⟨⟨h1, h2⟩, hrec⟩ := h
            have g2 : ∀ t : List Nat, (xs1 ++ t).getD 2 0 = xs1.getD 2 0 :=
              fun t => List.getD_append _ _ _ _ (by omega)
            have g3 : ∀ t : List Nat, (xs1 ++ t).getD 3 0 = xs1.getD 3 0 :=
              fun t => List.getD_append _ _ _ _ (by omega)
            have g4 : ∀ t : List Nat, (xs1 ++ t).getD 4 0 = xs1.getD 4 0 :=
              fun t => List.getD_append _ _ _ _ (by omega)
            have g5 : ∀ t : List Nat, (xs1 ++ t).drop 5 = xs1.drop 5 ++ t :=
              fun t => List.drop_append_of_le_length (by omega)
            have g6 : ∀ t : List Nat, readFields (xs1.getD 4 0) (xs1.drop 5 ++ t) =
                readFields (xs1.getD 4 0) (xs1.drop 5) :=
              fun t => readFields_append_eq _ _ _ (by rw [List.length_drop]; omega)
            have g7 : ∀ t : List Nat,
                (xs1.drop 5 ++ t).drop (3 * xs1.getD 4 0) =
                  (xs1.drop 5).drop (3 * xs1.getD 4 0) ++ t :=
              fun t => List.drop_append_of_le_length (by rw [List.length_drop]; omega)
            show parseLoop (f + 1) (rem + 1) (rh :: (xs1 ++ t1)) regs =
              parseLoop (f + 1) (rem + 1) (rh :: (xs1 ++ t2)) regs
            rw [parseLoop, parseLoop, if_pos hc, if_pos hc]
            simp only [g2, g3, g4, g5, g6, g7]
            exact congrArg _ (ih _ _ t1 t2 _ hrec)
          · rw [bodyClosed, if_neg hc] at h
            show parseLoop (f + 1) (rem + 1) (rh :: (xs1 ++ t1)) regs =
              parseLoop (f + 1) (rem + 1) (rh :: (xs1 ++ t2)) regs
            rw [parseLoop, parseLoop, if_neg hc, if_neg hc]
            rcases hr : regs (rh &&& 15) with _ | d
            · rw [hr] at h
            · rw [hr] at h
              simp only [Bool.and_eq_true, decide_eq_true_eq] at h
              obtain ⟨⟨h1, h2⟩, hrec⟩ := h
              have g8 : ∀ t : List Nat,
                  (xs1 ++ t).take d.total_size = xs1.take d.total_size :=
                fun t => List.take_append_of_le_length h1
              have g9 : ∀ t : List Nat,
                  (xs1 ++ t).drop d.total_size = xs1.drop d.total_size ++ t :=
                fun t => List.drop_append_of_le_length h1
              simp only [hr, g8, g9]
              exact congrArg _ (ih _ _ t1 t2 _ hrec)

/-- C8: corrupting the last trailer byte of a valid file flips the CRC check
from pass to fail while the record list stays exactly the same: the CRC
failure never suppresses the messages parsed before the trailer check. -/
theorem crc_mismatch_partial_results (hdr body : List Nat) (c1 c2 c2' : Nat)
    (hlen : hdr.length = 14) (hhs : hdr.getD 0 0 = 14)
    (hds : readU32le (hdr.getD 4 0) (hdr.getD 5 0) (hdr.getD 6 0) (hdr.getD 7 0) =
      body.length)
    (hclosed : bodyClosed body.length body.length body emptyRegistry = true)
    (hcrc : readU16le c1 c2 = get_crc (hdr ++ body)) (hne : c2' ≠ c2) :
    (parse_file (hdr ++ (body ++ [c1, c2']))).records =
      (parse_file (hdr ++ (body ++ [c1, c2]))).records ∧
    (parse_file (hdr ++ (body ++ [c1, c2]))).fileCrcOk = some true ∧
    (parse_file (hdr ++ (body ++ [c1, c2']))).fileCrcOk = some false := by
  have hgk : ∀ (k : Nat) (t : List Nat), k < 14 →
      (hdr ++ t).getD k 0 = hdr.getD k 0 :=
    fun k t hk => List.getD_append _ _ _ _ (by omega)
  have hdrop : ∀ t : List Nat, (hdr ++ t).drop 14 = t := by
    intro t
    rw [← hlen, List.drop_left]
  have htake : ∀ c : Nat, (hdr ++ (body ++ [c1, c])).take (14 + body.length) =
      hdr ++ body := by
    intro c
    rw [List.take_append_eq_append_take]
    rw [List.take_of_length_le (by omega), hlen]
    have e1 : 14 + body.length - 14 = body.length := by omega
    rw [e1, List.take_append_of_le_length (by omega), List.take_length]
  have htr : ∀ c : Nat, (hdr ++ (body ++ [c1, c])).drop (14 + body.length) =
      [c1, c] := by
    intro c
    rw [← List.drop_drop, hdrop, List.drop_append_of_le_length (by omega),
      List.drop_length, List.nil_append]
  have hhs' : ∀ c : Nat, (hdr ++ (body ++ [c1, c])).getD 0 0 = 14 := by
    intro c; rw [hgk 0 _ (by omega), hhs]
  have hds' : ∀ c : Nat,
      readU32le ((hdr ++ (body ++ [c1, c])).getD 4 0)
        ((hdr ++ (body ++ [c1, c])).getD 5 0) ((hdr ++ (body ++ [c1, c])).getD 6 0)
        ((hdr ++ (body ++ [c1, c])).getD 7 0) = body.length := by
    intro c
    rw [hgk 4 _ (by omega), hgk 5 _ (by omega), hgk 6 _ (by omega),
      hgk 7 _ (by omega), hds]
  refine ⟨?_, ?_, ?_⟩
  · show (parse_file (hdr ++ (body ++ [c1, c2']))).records =
      (parse_file (hdr ++ (body ++ [c1, c2]))).records
    simp only [parse_file, hhs', hds', hdrop]
    exact parseLoop_tail_irrelevant body.length body.length body [c1, c2']
      [c1, c2] emptyRegistry hclosed
  · simp only [parse_file, hhs', hds', htr]
    rw [htake c2]
    simp only [List.length_cons, List.length_nil, if_pos rfl]
    have : readU16le ([c1, c2].getD 0 0) ([c1, c2].getD 1 0) =
        get_crc (hdr ++ body) := by
      simpa using hcrc
    rw [this]
    simp
  · simp only [parse_file, hhs', hds', htr]
    rw [htake c2']
    simp only [List.length_cons, List.length_nil, if_pos rfl]
    have hne2 : readU16le c1 c2' ≠ get_crc (hdr ++ body) := by
      rw [← hcrc, readU16le, readU16le]
      omega
    simp [hne2]

set_option maxRecDepth 1000000 in
/-- C8 witness: the corruption theorem applied to a concrete valid file — a
14-byte header declaring an 11-byte body holding one Definition Message and
one Data Message, with correct file CRC 12079 — whose last trailer byte is
changed from 47 to 48. -/
theorem crc_mismatch_partial_results_witness :
    (([14, 32, 10, 9, 11, 0, 0, 0, 46, 70, 73, 84, 0, 0] : List Nat).length = 14 ∧
      bodyClosed 11 11 [64, 0, 0, 20, 0, 1, 1, 1, 2, 0, 5] emptyRegistry = true ∧
      readU16le 47 47 =
        get_crc ([14, 32, 10, 9, 11, 0, 0, 0, 46, 70, 73, 84, 0, 0] ++
          [64, 0, 0, 20, 0, 1, 1, 1, 2, 0, 5]) ∧ (48 : Nat) ≠ 47) ∧
    (parse_file ([14, 32, 10, 9, 11, 0, 0, 0, 46, 70, 73, 84, 0, 0] ++
        ([64, 0, 0, 20, 0, 1, 1, 1, 2, 0, 5] ++ [47, 48]))).records =
      (parse_file ([14, 32, 10, 9, 11, 0, 0, 0, 46, 70, 73, 84, 0, 0] ++
        ([64, 0, 0, 20, 0, 1, 1, 1, 2, 0, 5] ++ [47, 47]))).records ∧
    (parse_file ([14, 32, 10, 9, 11, 0, 0, 0, 46, 70, 73, 84, 0, 0] ++
        ([64, 0, 0, 20, 0, 1, 1, 1, 2, 0, 5] ++ [47, 47]))).fileCrcOk = some true ∧
    (parse_file ([14, 32, 10, 9, 11, 0, 0, 0, 46, 70, 73, 84, 0, 0] ++
        ([64, 0, 0, 20, 0, 1, 1, 1, 2, 0, 5] ++ [47, 48]))).fileCrcOk = some false :=
  ⟨⟨by decide, by decide, by decide, by decide⟩,
    crc_mismatch_partial_results [14, 32, 10, 9, 11, 0, 0, 0, 46, 70, 73, 84, 0, 0]
      [64, 0, 0, 20, 0, 1, 1, 1, 2, 0, 5] 47 47 48 (by decide) (by decide)
      (by decide) (by decide) (by decide) (by decide)⟩

/-- The sum of field sizes distributes over cons. -/
theorem sumSizes_cons (f : FieldDef) (fds : List FieldDef) :
    sumSizes (f :: fds) = f.size + sumSizes fds := by
  have aux : ∀ (l : List FieldDef) (acc : Nat),
      l.foldl (fun a x => a + x.size) acc = acc + l.foldl (fun a x => a + x.size) 0 := by
    intro l
    induction l with
    | nil => intro acc; simp
    | cons x xs ih =>
        intro acc
        simp only [List.foldl_cons]
        rw [ih (acc + x.size), ih (0 + x.size)]
        omega
  show (f :: fds).foldl (fun a x => a + x.size) 0 = f.size + sumSizes fds
  simp only [List.foldl_cons, Nat.zero_add]
  exact aux fds f.size

/-- A matching field value encodes to exactly its declared width. -/
theorem encField_length (fd : FieldDef) (v : FieldVal)
    (h : fieldMatches fd v = true) : (encField v).length = fd.size := by
  cases v <;>
    simp only [fieldMatches, Bool.and_eq_true, Bool.or_eq_true, beq_iff_eq] at h <;>
    simp [encField, le16, le32, h.2]

/-- A matching value list encodes to exactly the definition's total data
size. -/
theorem encFields_length (fds : List FieldDef) (vals : List FieldVal)
    (h : layoutMatches fds vals = true) :
    (encFields vals).length = sumSizes fds := by
  induction fds generalizing vals with
  | nil =>
      cases vals with
      | nil => rfl
      | cons v vs => exact absurd h (by simp [layoutMatches])
  | cons fd fds ih =>
      cases vals with
      | nil => exact absurd h (by simp [layoutMatches])
      | cons v vs =>
          simp only [layoutMatches, Bool.and_eq_true] at h
          show ((encField v ++ encFields vs)).length = sumSizes (fd :: fds)
          rw [List.length_append, encField_length fd v h.1, ih vs h.2,
            sumSizes_cons]

/-- Decoding the encoding of a single well-formed, matching field value
recovers the value. -/
theorem decodeFieldVal_encField (fd : FieldDef) (v : FieldVal)
    (hm : fieldMatches fd v = true) (hw : fieldWF v = true) :
    decodeFieldVal fd.base_type (encField v) = some v := by
  cases v with
  | u8 x =>
      simp only [fieldMatches, Bool.and_eq_true, Bool.or_eq_true, beq_iff_eq] at hm
      rcases hm.1 with h | h <;> simp [decodeFieldVal, h, encField]
  | u16 x =>
      simp only [fieldMatches, Bool.and_eq_true, beq_iff_eq] at hm
      simp only [fieldWF, decide_eq_true_eq] at hw
      simp only [encField, le16, decodeFieldVal, hm.1]
      norm_num
      rw [readU16le]
      omega
  | u32 x =>
      simp only [fieldMatches, Bool.and_eq_true, beq_iff_eq] at hm
      simp only [fieldWF, decide_eq_true_eq] at hw
      simp only [encField, le32, decodeFieldVal, hm.1]
      norm_num
      rw [readU32le]
      omega
  | s32 x =>
      simp only [fieldMatches, Bool.and_eq_true, beq_iff_eq] at hm
      simp only [fieldWF, Bool.and_eq_true, decide_eq_true_eq] at hw
      simp only [encField, le32, decodeFieldVal, hm.1]
      norm_num
      have hv : readU32le ((x % 4294967296).toNat % 256)
          ((x % 4294967296).toNat / 256 % 256)
          ((x % 4294967296).toNat / 65536 % 256)
          ((x % 4294967296).toNat / 16777216 % 256) = (x % 4294967296).toNat := by
        rw [readU32le]; omega
      rw [hv]
      by_cases hlt : (x % 4294967296).toNat < 2147483648
      · rw [if_pos hlt]
        omega
      · rw [if_neg hlt]
        omega

/-- Decoding the encoding of a well-formed, matching value list recovers the
list. -/
theorem decodeFieldsD_encFields (fds : List FieldDef) (vals : List FieldVal)
    (hm : layoutMatches fds vals = true) (hw : vals.all fieldWF = true) :
    decodeFieldsD fds (encFields vals) = some vals := by
  induction fds generalizing vals with
  | nil =>
      cases vals with
      | nil => rfl
      | cons v vs => exact absurd hm (by simp [layoutMatches])
  | cons fd fds ih =>
      cases vals with
      | nil => exact absurd hm (by simp [layoutMatches])
      | cons v vs =>
          simp only [layoutMatches, Bool.and_eq_true] at hm
          simp only [List.all_cons, Bool.and_eq_true] at hw
          have hlen : (encField v).length = fd.size := encField_length fd v hm.1
          show decodeFieldsD (fd :: fds) (encField v ++ encFields vs) = _
          rw [decodeFieldsD]
          rw [if_neg (by rw [List.length_append, hlen]; omega)]
          rw [show (encField v ++ encFields vs).take fd.size = encField v by
            rw [← hlen, List.take_left]]
          rw [show (encField v ++ encFields vs).drop fd.size = encFields vs by
            rw [← hlen, List.drop_left]]
          rw [decodeFieldVal_encField fd v hm.1 hw.1, ih vs hm.2 hw.2]

/-- Every message of one of the seven kinds fits its kind's layout. -/
theorem layoutMatches_fieldsOf (m : LogicalMessage) (tag : MsgTag)
    (h : tagOf m = some tag) :
    layoutMatches (layoutOf tag) (fieldsOf m) = true := by
  cases m <;> first
    | (simp only [tagOf, Option.some.injEq] at h; subst h; rfl)
    | exact absurd h (by simp [tagOf])

/-- Rebuilding a message of one of the seven kinds from its own fields under
its own global message number gives the message back. -/
theorem fromFields_fieldsOf (m : LogicalMessage) (tag : MsgTag)
    (h : tagOf m = some tag) :
    fromFields (tagGmn tag) (fieldsOf m) = some m := by
  cases m <;> first
    | (simp only [tagOf, Option.some.injEq] at h; subst h; rfl)
    | exact absurd h (by simp [tagOf])

/-- Encoder slots are distinct across kinds. -/
theorem tagSlot_inj (t1 t2 : MsgTag) (h : tagSlot t1 = tagSlot t2) : t1 = t2 := by
  cases t1 <;> cases t2 <;> simp_all [tagSlot]

/-- Decoding one emitted Definition Message registers the kind's layout in
its slot and continues with the rest of the stream. -/
theorem decodeMsgs_def_step (tag : MsgTag) (X : List Nat) (regs : DRegistry)
    (fuel : Nat) :
    decodeMsgs (fuel + 1) (defMsgBytesSpec tag ++ X) regs =
      decodeMsgs fuel X
        (Function.update regs (tagSlot tag)
          (some (tagGmn tag, layoutOf tag))) := by
  have hs7 : tagSlot tag < 7 := by cases tag <;> decide
  have hg : tagGmn tag < 65536 := by cases tag <;> decide
  obtain ⟨hbit, hmask⟩ := defHeaderByte_bits (tagSlot tag) (by omega)
  have hgmn : readU16be (tagGmn tag / 256) (tagGmn tag % 256) = tagGmn tag := by
    rw [readU16be]; omega
  show decodeMsgs (fuel + 1)
      ((64 + tagSlot tag) :: (0 :: 0 :: tagGmn tag / 256 :: tagGmn tag % 256 ::
        (layoutOf tag).length ::
        (((layoutOf tag).map fun f => [f.def_num, f.size, f.base_type]).flatten ++ X)))
      regs = _
  rw [decodeMsgs, if_neg (by omega), if_pos hbit]
  have e2 : (0 :: 0 :: tagGmn tag / 256 :: tagGmn tag % 256 ::
      (layoutOf tag).length ::
      (((layoutOf tag).map fun f => [f.def_num, f.size, f.base_type]).flatten ++
        X)).getD 2 0 = tagGmn tag / 256 := rfl
  have e3 : (0 :: 0 :: tagGmn tag / 256 :: tagGmn tag % 256 ::
      (layoutOf tag).length ::
      (((layoutOf tag).map fun f => [f.def_num, f.size, f.base_type]).flatten ++
        X)).getD 3 0 = tagGmn tag % 256 := rfl
  have e4 : (0 :: 0 :: tagGmn tag / 256 :: tagGmn tag % 256 ::
      (layoutOf tag).length ::
      (((layoutOf tag).map fun f => [f.def_num, f.size, f.base_type]).flatten ++
        X)).getD 4 0 = (layoutOf tag).length := rfl
  have e5 : (0 :: 0 :: tagGmn tag / 256 :: tagGmn tag % 256 ::
      (layoutOf tag).length ::
      (((layoutOf tag).map fun f => [f.def_num, f.size, f.base_type]).flatten ++
        X)).drop 5 =
      ((layoutOf tag).map fun f => [f.def_num, f.size, f.base_type]).flatten ++
        X := rfl
  have eL : (0 :: 0 :: tagGmn tag / 256 :: tagGmn tag % 256 ::
      (layoutOf tag).length ::
      (((layoutOf tag).map fun f => [f.def_num, f.size, f.base_type]).flatten ++
        X)).length = 5 + (3 * (layoutOf tag).length + X.length) := by
    simp only [List.length_cons, List.length_append, triples_length]
    omega
  rw [e2, e3, e4, e5]
  rw [if_neg (by rw [eL]; omega)]
  rw [hmask, hgmn, readFields_triples, drop_triples]

/-- Decoding one emitted Data Message for a registered kind produces exactly
the encoded message and continues with the rest of the stream. -/
theorem decodeMsgs_data_step (tag : MsgTag) (m : LogicalMessage) (X : List Nat)
    (regs : DRegistry) (fuel : Nat) (htag : tagOf m = some tag)
    (hw : msgWF m = true)
    (hreg : regs (tagSlot tag) = some (tagGmn tag, layoutOf tag)) :
    decodeMsgs (fuel + 1) (dataMsgBytesSpec tag m ++ X) regs =
      match decodeMsgs fuel X regs with
      | .ok ms => .ok (m :: ms)
      | .error e => .error e := by
  have hs7 : tagSlot tag < 7 := by cases tag <;> decide
  obtain ⟨hbit, hmask⟩ := dataHeaderByte_bits (tagSlot tag) (by omega)
  have hlm : layoutMatches (layoutOf tag) (fieldsOf m) = true :=
    layoutMatches_fieldsOf m tag htag
  have hallw : (fieldsOf m).all fieldWF = true := by
    rw [msgWF, htag] at hw; exact hw
  have hlen : (encFields (fieldsOf m)).length = sumSizes (layoutOf tag) :=
    encFields_length _ _ hlm
  show decodeMsgs (fuel + 1) (tagSlot tag :: (encFields (fieldsOf m) ++ X)) regs = _
  rw [decodeMsgs, if_neg (by omega), if_neg (by rw [hbit]; decide), hmask, hreg]
  dsimp only
  rw [if_neg (by rw [List.length_append, hlen]; omega)]
  rw [show (encFields (fieldsOf m) ++ X).take (sumSizes (layoutOf tag)) =
    encFields (fieldsOf m) by rw [← hlen, List.take_left]]
  rw [show (encFields (fieldsOf m) ++ X).drop (sumSizes (layoutOf tag)) = X by
    rw [← hlen, List.drop_left]]
  rw [decodeFieldsD_encFields _ _ hlm hallw]
  dsimp only
  rw [fromFields_fieldsOf m tag htag]

/-- Decoding the encoder's message stream recovers the message sequence,
whenever the registry is consistent with the already-emitted definitions and
the fuel covers the byte count. -/
theorem decodeMsgs_encodeMsgs (S : List LogicalMessage) :
    ∀ (em : List MsgTag) (regs : DRegistry) (fuel : Nat),
      msgsWF S = true → RegInv em regs →
      (encodeMsgs S em).length ≤ fuel →
      decodeMsgs fuel (encodeMsgs S em) regs = .ok S := by
  induction S with
  | nil =>
      intro em regs fuel _ _ _
      show decodeMsgs fuel [] regs = .ok []
      cases fuel <;> rfl
  | cons m S ih =>
      intro em regs fuel hwf hinv hfuel
      simp only [msgsWF, List.all_cons, Bool.and_eq_true] at hwf
      obtain ⟨hm, hS⟩ := hwf
      rcases htag : tagOf m with _ | tag
      · rw [msgWF, htag] at hm; exact absurd hm (by simp)
      · rw [encodeMsgs, htag] at hfuel ⊢
        dsimp only at hfuel ⊢
        by_cases hmem : tag ∈ em
        · rw [if_pos hmem] at hfuel ⊢
          obtain ⟨f, rfl⟩ : ∃ f, fuel = f + 1 := by
            refine ⟨fuel - 1, ?_⟩
            simp only [dataMsgBytesSpec, List.cons_append, List.length_cons]
              at hfuel
            omega
          rw [decodeMsgs_data_step tag m _ regs f htag
            (by rw [msgWF, htag]; rw [msgWF, htag] at hm; exact hm)
            (hinv tag hmem)]
          rw [ih em regs f (by simpa [msgsWF] using hS) hinv
            (by simp only [dataMsgBytesSpec, List.cons_append, List.length_cons,
              List.length_append] at hfuel ⊢; omega)]
        · rw [if_neg hmem] at hfuel ⊢
          obtain ⟨f, rfl⟩ : ∃ f, fuel = f + 2 := by
            refine ⟨fuel - 2, ?_⟩
            simp only [defMsgBytesSpec, dataMsgBytesSpec, List.cons_append,
              List.length_cons, List.length_append] at hfuel
            omega
          have hinv2 : RegInv (tag :: em)
              (Function.update regs (tagSlot tag)
                (some (tagGmn tag, layoutOf tag))) := by
            intro t ht
            rcases List.mem_cons.1 ht with rfl | htem
            · rw [Function.update_same]
            · have hne : tagSlot t ≠ tagSlot tag := fun he =>
                hmem (tagSlot_inj t tag he ▸ htem)
              rw [Function.update_noteq hne]
              exact hinv t htem
          rw [show f + 2 = (f + 1) + 1 from rfl, decodeMsgs_def_step tag _ regs]
          rw [decodeMsgs_data_step tag m _ _ f htag
            (by rw [msgWF, htag]; rw [msgWF, htag] at hm; exact hm)
            (Function.update_same _ _ _)]
          rw [ih (tag :: em) _ f (by simpa [msgsWF] using hS) hinv2
            (by simp only [defMsgBytesSpec, dataMsgBytesSpec, List.cons_append,
              List.length_cons, List.length_append] at hfuel ⊢; omega)]

/-- Every entry of the Garmin CRC table, and the out-of-range default, is
below 2^16. -/
theorem crc_table_getD_lt (i : Nat) : crc_table.getD i 0 < 65536 := by
  by_cases h : i < 16
  · interval_cases i <;> decide
  · rw [List.getD_eq_default _ _ (by simp [crc_table]; omega)]
    decide

/-- One step of the reference CRC stays below 2^16. -/
theorem specCrcStep_lt (c b : Nat) : specCrcStep c b < 65536 := by
  rw [specCrcStep]
  have h1 : ∀ x : Nat, (x >>> 4) &&& 0x0FFF < 65536 :=
    fun x => lt_of_le_of_lt (Nat.and_le_right) (by norm_num)
  have h16 : (65536 : Nat) = 2 ^ 16 := by norm_num
  rw [h16] at h1 ⊢
  exact Nat.xor_lt_two_pow
    (Nat.xor_lt_two_pow (h1 _) (h16 ▸ crc_table_getD_lt _))
    (h16 ▸ crc_table_getD_lt _)

/-- The reference CRC of any byte sequence is below 2^16, so it survives the
16-bit little-endian store-and-reload unchanged. -/
theorem specCrcBuffer_lt (data : List Nat) : specCrcBuffer data < 65536 := by
  have aux : ∀ (l : List Nat) (c : Nat), c < 65536 →
      l.foldl specCrcStep c < 65536 := by
    intro l
    induction l with
    | nil => intro c hc; exact hc
    | cons b bs ih =>
        intro c _
        exact ih (specCrcStep c b) (specCrcStep_lt c b)
  exact aux data 0 (by norm_num)

/-- Decoding the envelope of any message buffer below 2^32 bytes passes the
magic, size-invariant and both CRC checks, and hands the exact buffer to the
record-stream decoder. -/
theorem decodeFile_encodeFileBytes (dataB : List Nat)
    (h : dataB.length < 4294967296) :
    decodeFile (encodeFileBytes dataB) =
      decodeMsgs dataB.length dataB emptyDRegistry := by
  have e0 : (encodeFileBytes dataB).getD 0 0 = 14 := rfl
  have e4 : (encodeFileBytes dataB).getD 4 0 = dataB.length % 256 := rfl
  have e5 : (encodeFileBytes dataB).getD 5 0 = dataB.length / 256 % 256 := rfl
  have e6 : (encodeFileBytes dataB).getD 6 0 = dataB.length / 65536 % 256 := rfl
  have e7 : (encodeFileBytes dataB).getD 7 0 = dataB.length / 16777216 % 256 := rfl
  have hmagic : ((encodeFileBytes dataB).drop 8).take 4 = [46, 70, 73, 84] := rfl
  have hread : readU32le ((encodeFileBytes dataB).getD 4 0)
      ((encodeFileBytes dataB).getD 5 0) ((encodeFileBytes dataB).getD 6 0)
      ((encodeFileBytes dataB).getD 7 0) = dataB.length := by
    rw [e4, e5, e6, e7]
    exact readU32le_le32 _ h
  have hElen : (encodeFileBytes dataB).length = 14 + dataB.length + 2 := by
    simp [encodeFileBytes, le16, le32]
    omega
  have htake12 : (encodeFileBytes dataB).take 12 =
      [14, 32] ++ le16 specProfileVersion ++ le32 dataB.length ++
        [46, 70, 73, 84] := rfl
  have e12 : (encodeFileBytes dataB).getD 12 0 =
      specCrcBuffer ([14, 32] ++ le16 specProfileVersion ++ le32 dataB.length ++
        [46, 70, 73, 84]) % 256 := rfl
  have e13 : (encodeFileBytes dataB).getD 13 0 =
      specCrcBuffer ([14, 32] ++ le16 specProfileVersion ++ le32 dataB.length ++
        [46, 70, 73, 84]) / 256 % 256 := rfl
  have hhcrc : readU16le ((encodeFileBytes dataB).getD 12 0)
      ((encodeFileBytes dataB).getD 13 0) =
      specCrcBuffer ((encodeFileBytes dataB).take 12) := by
    rw [e12, e13, htake12, readU16le]
    have := specCrcBuffer_lt ([14, 32] ++ le16 specProfileVersion ++
      le32 dataB.length ++ [46, 70, 73, 84])
    omega
  have hpreLen : (([14, 32] ++ le16 specProfileVersion ++ le32 dataB.length ++
      [46, 70, 73, 84]) ++
      le16 (specCrcBuffer ([14, 32] ++ le16 specProfileVersion ++
        le32 dataB.length ++ [46, 70, 73, 84])) ++ dataB).length =
      14 + dataB.length := by
    simp [le16, le32]
    omega
  have hdropT : (encodeFileBytes dataB).drop (14 + dataB.length) =
      le16 (specCrcBuffer
        (([14, 32] ++ le16 specProfileVersion ++ le32 dataB.length ++
            [46, 70, 73, 84]) ++
          le16 (specCrcBuffer ([14, 32] ++ le16 specProfileVersion ++
            le32 dataB.length ++ [46, 70, 73, 84])) ++ dataB)) :=
    List.drop_left' hpreLen
  have htakeT : (encodeFileBytes dataB).take (14 + dataB.length) =
      ([14, 32] ++ le16 specProfileVersion ++ le32 dataB.length ++
          [46, 70, 73, 84]) ++
        le16 (specCrcBuffer ([14, 32] ++ le16 specProfileVersion ++
          le32 dataB.length ++ [46, 70, 73, 84])) ++ dataB :=
    List.take_left' hpreLen
  have hle16a : ∀ x : Nat, (le16 x).getD 0 0 = x % 256 := fun x => rfl
  have hle16b : ∀ x : Nat, (le16 x).getD 1 0 = x / 256 % 256 := fun x => rfl
  have hdrop14 : (encodeFileBytes dataB).drop 14 =
      dataB ++ le16 (specCrcBuffer
        (([14, 32] ++ le16 specProfileVersion ++ le32 dataB.length ++
            [46, 70, 73, 84]) ++
          le16 (specCrcBuffer ([14, 32] ++ le16 specProfileVersion ++
            le32 dataB.length ++ [46, 70, 73, 84])) ++ dataB)) := by
    rw [show encodeFileBytes dataB =
      (([14, 32] ++ le16 specProfileVersion ++ le32 dataB.length ++
          [46, 70, 73, 84]) ++
        le16 (specCrcBuffer ([14, 32] ++ le16 specProfileVersion ++
          le32 dataB.length ++ [46, 70, 73, 84]))) ++
        (dataB ++ le16 (specCrcBuffer
          (([14, 32] ++ le16 specProfileVersion ++ le32 dataB.length ++
              [46, 70, 73, 84]) ++
            le16 (specCrcBuffer ([14, 32] ++ le16 specProfileVersion ++
              le32 dataB.length ++ [46, 70, 73, 84])) ++ dataB))) by
      simp [encodeFileBytes, List.append_assoc]]
    exact List.drop_left' (by simp [le16, le32])
  rw [decodeFile]
  rw [if_neg (by rw [hElen]; omega)]
  rw [if_neg (by rw [e0]; simp)]
  rw [if_neg (by rw [hmagic]; simp)]
  rw [if_neg (by rw [hElen, e0, hread]; omega)]
  rw [if_neg (by rw [hhcrc]; simp)]
  rw [e0, hread, hdropT]
  rw [if_neg (by
    rw [hle16a, hle16b, htakeT, readU16le]
    have := specCrcBuffer_lt
      (([14, 32] ++ le16 specProfileVersion ++ le32 dataB.length ++
          [46, 70, 73, 84]) ++
        le16 (specCrcBuffer ([14, 32] ++ le16 specProfileVersion ++
          le32 dataB.length ++ [46, 70, 73, 84])) ++ dataB)
    omega)]
  rw [hdrop14, List.take_left' rfl]

/-- C3 round-trip: for every well-formed LogicalMessage sequence whose
encoding fits the header's 32-bit data-size field, decoding the bytes
produced by encoding the sequence yields the sequence again, field for field
(the modelled messages carry wire-scaled integers, so no fixed-point rounding
is involved). -/
theorem logical_message_roundtrip (S : List LogicalMessage)
    (hwf : msgsWF S = true)
    (hlen : (encodeMsgs S []).length < 4294967296) :
    decodeFile (encodeFile S) = .ok S := by
  rw [encodeFile, decodeFile_encodeFileBytes _ hlen]
  exact decodeMsgs_encodeMsgs S [] emptyDRegistry (encodeMsgs S []).length hwf
    (fun tag ht => absurd ht (List.not_mem_nil tag)) le_rfl

set_option maxRecDepth 4000000 in
/-- C3 witness: the round-trip theorem applied to a concrete sequence
containing one message of each kind (Scenario B's FileId among them), with
the hypotheses discharged by evaluation. -/
theorem logical_message_roundtrip_witness :
    (msgsWF [LogicalMessage.fileId 4 1 1 1094763600,
      LogicalMessage.record 1094763601 623419239 (-100) 2500 85 250,
      LogicalMessage.record 1094763602 623419240 (-50) 2600 86 251,
      LogicalMessage.lap 1094763610 1094763601 10000 50000,
      LogicalMessage.session 1094763610 1094763601 2,
      LogicalMessage.activity 1094763610 0 1,
      LogicalMessage.deviceInfo 1094763600 0,
      LogicalMessage.event 1094763600 0] = true ∧
      (encodeMsgs [LogicalMessage.fileId 4 1 1 1094763600,
        LogicalMessage.record 1094763601 623419239 (-100) 2500 85 250,
        LogicalMessage.record 1094763602 623419240 (-50) 2600 86 251,
        LogicalMessage.lap 1094763610 1094763601 10000 50000,
        LogicalMessage.session 1094763610 1094763601 2,
        LogicalMessage.activity 1094763610 0 1,
        LogicalMessage.deviceInfo 1094763600 0,
        LogicalMessage.event 1094763600 0] []).length < 4294967296) ∧
    decodeFile (encodeFile [LogicalMessage.fileId 4 1 1 1094763600,
      LogicalMessage.record 1094763601 623419239 (-100) 2500 85 250,
      LogicalMessage.record 1094763602 623419240 (-50) 2600 86 251,
      LogicalMessage.lap 1094763610 1094763601 10000 50000,
      LogicalMessage.session 1094763610 1094763601 2,
      LogicalMessage.activity 1094763610 0 1,
      LogicalMessage.deviceInfo 1094763600 0,
      LogicalMessage.event 1094763600 0]) =
    .ok [LogicalMessage.fileId 4 1 1 1094763600,
      LogicalMessage.record 1094763601 623419239 (-100) 2500 85 250,
      LogicalMessage.record 1094763602 623419240 (-50) 2600 86 251,
      LogicalMessage.lap 1094763610 1094763601 10000 50000,
      LogicalMessage.session 1094763610 1094763601 2,
      LogicalMessage.activity 1094763610 0 1,
      LogicalMessage.deviceInfo 1094763600 0,
      LogicalMessage.event 1094763600 0] :=
  ⟨⟨by decide, by decide⟩,
    logical_message_roundtrip _ (by decide) (by decide)⟩

end Fit
